import Mathlib

/-!
Verification of the frontend of the GitHub event monitor against its
specification.  The development shallowly embeds the TypeScript sources:

* `src/frontend/components/app/warning-card.tsx` (the `WarningCard` and
  `Feedbox` components, including `getWarningTypeColor`, the EventSource
  message handler, and `handleSearch`),
* `src/frontend/components/app/viewer.tsx` and `json-viewer.tsx`,
* the utility module (`getRepositoryInfo`, `getActorInfo`, `cn`, ...) and the
  Supabase search client (`getRelevantEvents`),
* the secondary raw stream page (the plain `Home` component that subscribes to
  `/stream` and renders every message).

Strings are Lean `String`s; the JavaScript operations used by the sources
(`toLowerCase`, `split`, `pop`, `replace`, `||` on strings, SQL `ilike`) are
given executable Lean models below.
-/

namespace ConwayTechnical

/-- ASCII lower-casing of one character, the case mapping performed both by
JavaScript `String.prototype.toLowerCase` and SQL `lower()` on the ASCII
strings appearing in this code base (all case labels and search fields here
are ASCII). -/
def lowerChar (c : Char) : Char :=
  if 65 ≤ c.toNat ∧ c.toNat ≤ 90 then Char.ofNat (c.toNat + 32) else c

/-- Model of JavaScript `s.toLowerCase()`. -/
def jsToLowerCase (s : String) : String :=
  ⟨s.data.map lowerChar⟩

/-- Character-list lower-casing, used for the SQL `ilike` model. -/
def lowerList (l : List Char) : List Char :=
  l.map lowerChar

/-- Does the first list occur at the very start of the second? -/
def startsWithList : List Char → List Char → Bool
  | [], _ => true
  | _ :: _, [] => false
  | p :: ps, c :: cs => p == c && startsWithList ps cs

/-- Does the first list occur contiguously anywhere inside the second? -/
def containsList (needle : List Char) : List Char → Bool
  | [] => needle.isEmpty
  | c :: cs => startsWithList needle (c :: cs) || containsList needle cs

/-- All suffixes of a list, from the list itself down to `[]`. -/
def suffixes : List Char → List (List Char)
  | [] => [[]]
  | c :: cs => (c :: cs) :: suffixes cs

/-- SQL `LIKE` pattern matching: `%` matches any (possibly empty) sequence of
characters, `_` matches exactly one character, every other pattern character
matches itself.  This is the matching semantics behind the PostgREST
`ilike` filter used by `getRelevantEvents`. -/
def likeMatch : List Char → List Char → Bool
  | [], s => s.isEmpty
  | p :: ps, s =>
    if p = '%' then
      (suffixes s).any (fun t => likeMatch ps t)
    else
      match s with
      | [] => false
      | c :: s' => (if p = '_' then true else p == c) && likeMatch ps s'

/-- SQL `ilike`: case-insensitive `LIKE` (both sides lower-cased). -/
def ilikeMatches (pattern s : String) : Bool :=
  likeMatch (lowerList pattern.data) (lowerList s.data)

/-- Model of JavaScript `s.split(sep)` for a one-character separator, on
character lists.  Splitting the empty string yields one empty segment, as in
JavaScript. -/
def splitOnChar (sep : Char) : List Char → List (List Char)
  | [] => [[]]
  | c :: cs =>
    match splitOnChar sep cs with
    | [] => [[]]
    | r :: rs => if c = sep then [] :: r :: rs else (c :: r) :: rs

/-- Model of JavaScript `s.split(sep)` on strings. -/
def jsSplit (sep : Char) (s : String) : List String :=
  (splitOnChar sep s.data).map (fun l => String.mk l)

/-- Replace the first occurrence of `pat` in the list by `sub`; if `pat` does
not occur, return the list unchanged.  This is JavaScript
`s.replace(pat, sub)` for a string pattern, which replaces only the first
occurrence. -/
def replaceFirstAux (pat sub : List Char) : List Char → List Char
  | [] => if startsWithList pat [] then sub else []
  | c :: cs =>
    if startsWithList pat (c :: cs) then sub ++ (c :: cs).drop pat.length
    else c :: replaceFirstAux pat sub cs

/-- Model of JavaScript `s.replace(pat, sub)` for a string pattern. -/
def jsReplace (pat sub s : String) : String :=
  ⟨replaceFirstAux pat.data sub.data s.data⟩

/-- JavaScript `a || b` for strings: the empty string is falsy. -/
def jsOr (a b : String) : String :=
  if a = "" then b else a

/-- JavaScript `a?.f || b`: `undefined` and the empty string both fall back. -/
def jsOrOpt (a : Option String) (b : String) : String :=
  match a with
  | none => b
  | some s => if s = "" then b else s

/-! ## Data model (the `StreamMessage` interface of `warning-card.tsx` and the
`flagged_events` rows returned by the Supabase client) -/

/-- The `actor` field of an event payload (`StreamMessage.payload.actor`). -/
structure Actor where
  id : Int
  login : String
  display_login : Option String
  avatar_url : String
  url : String
  deriving DecidableEq

/-- The `repo` field of an event payload (`StreamMessage.payload.repo`). -/
structure Repo where
  id : Int
  name : String
  url : String
  deriving DecidableEq

/-- The raw GitHub event document carried in `StreamMessage.payload`.  The
TypeScript interface declares `actor` and `repo` as required, but the helpers
(`getRepositoryInfo`, `getActorInfo`) access them with optional chaining
(`payload.repo?.name`), so at runtime they may be absent; we model them as
optional. -/
structure Payload where
  id : String
  type : String
  actor : Option Actor
  repo : Option Repo
  created_at : String
  deriving DecidableEq

/-- The `analysis` field of a stream message. -/
structure Analysis where
  root_cause : List String
  impact : List String
  next_steps : List String
  deriving DecidableEq

/-- The `StreamMessage` interface exported by `Feedbox`
(`warning-card.tsx`, lines 218-245). -/
structure StreamMessage where
  payload : Payload
  analysis : Option Analysis
  warning_id : String
  warning_type : String
  is_ping : Bool
  deriving DecidableEq

/-- The result of `JSON.parse(event.data)` inside the `Feedbox` EventSource
handler: a wire-level message whose `payload` may be missing (the handler
guards on `data.payload` before using it; per the stream contract, ping
messages carry no payload). -/
structure WireMessage where
  payload : Option Payload
  analysis : Option Analysis
  warning_id : String
  warning_type : String
  is_ping : Bool
  deriving DecidableEq

/-- The `StreamMessage` a wire message denotes once its payload is known to be
present. -/
def WireMessage.toStreamMessage (d : WireMessage) (p : Payload) : StreamMessage :=
  { payload := p
    analysis := d.analysis
    warning_id := d.warning_id
    warning_type := d.warning_type
    is_ping := d.is_ping }

/-- One row of the Supabase `flagged_events` table, carrying the columns used
by `getRelevantEvents` (the search filter) and `handleSearch` (the mapping to
stream messages). -/
structure FlaggedEventRow where
  id : String
  type : String
  event_payload : Payload
  root_cause : List String
  impact : List String
  next_steps : List String
  has_been_processed : Bool
  repo_name : String
  org_name : String
  actor_username : String
  deriving DecidableEq

/-- The record returned by `getRepositoryInfo`. -/
structure RepositoryInfo where
  name : String
  url : String
  deriving DecidableEq

/-! ## Embedded operations -/

/-- Translated from `getWarningTypeColor` (`warning-card.tsx`, lines 40-55):
a switch on `type.toLowerCase()` whose case labels are the five warning-type
strings, falling through to the gray default. -/
def getWarningTypeColor (type : String) : String :=
  if jsToLowerCase type = "Push to default branch" then
    "bg-red-100 text-red-800 border-red-200"
  else if jsToLowerCase type = "Large push to default branch" then
    "bg-orange-100 text-orange-800 border-orange-200"
  else if jsToLowerCase type = "Default branch deleted" then
    "bg-yellow-100 text-yellow-800 border-yellow-200"
  else if jsToLowerCase type = "Repository visibility changed to public" then
    "bg-blue-100 text-blue-800 border-blue-200"
  else if jsToLowerCase type = "New collaborator added" then
    "bg-green-100 text-green-800 border-green-200"
  else
    "bg-gray-100 text-gray-800 border-gray-200"

/-- Translated from `getRepositoryInfo` in the utility module:
`repoName = payload.repo?.name || "Unknown Repository"`,
`repoUrl = payload.repo?.url || "#"`, then
`name = repoName.split("/").pop() || repoName` and
`url = repoUrl.replace("api.github.com/repos", "github.com")`. -/
def getRepositoryInfo (message : StreamMessage) : RepositoryInfo :=
  let repoName := jsOrOpt (message.payload.repo.map Repo.name) "Unknown Repository"
  let repoUrl := jsOrOpt (message.payload.repo.map Repo.url) "#"
  { name := jsOr ((jsSplit '/' repoName).getLastD "") repoName
    url := jsReplace "api.github.com/repos" "github.com" repoUrl }

/-- Stated from the words of claim C9, for comparison with
`getRepositoryInfo`: with no repo the defaults, otherwise the last
slash-separated segment of `repo.name` (or `repo.name` itself if that segment
is empty) and `repo.url` with `api.github.com/repos` replaced by
`github.com`. -/
def claimedRepositoryInfo (message : StreamMessage) : RepositoryInfo :=
  match message.payload.repo with
  | none => { name := "Unknown Repository", url := "#" }
  | some r =>
    let seg := (jsSplit '/' r.name).getLastD ""
    { name := if seg = "" then r.name else seg
      url := jsReplace "api.github.com/repos" "github.com" r.url }

/-- Translated from `getRelevantEvents` (the Supabase client): select rows of
`flagged_events` with `has_been_processed = true` and
`repo_name.ilike.%query%` or `org_name.ilike.%query%` or
`actor_username.ilike.%query%`. -/
def getRelevantEvents (query : String) (flagged_events : List FlaggedEventRow) :
    List FlaggedEventRow :=
  flagged_events.filter fun r =>
    r.has_been_processed &&
      (ilikeMatches ("%" ++ query ++ "%") r.repo_name ||
        ilikeMatches ("%" ++ query ++ "%") r.org_name ||
        ilikeMatches ("%" ++ query ++ "%") r.actor_username)

/-- The notion used by claim C2: the query occurs case-insensitively as a
contiguous substring of the field. -/
def occursCaseInsensitive (q s : String) : Bool :=
  containsList (lowerList q.data) (lowerList s.data)

/-- The per-row mapping inside `handleSearch` (`warning-card.tsx`,
lines 292-303): each database row becomes a stream-shaped message with the
row's analysis columns and `is_ping = false`. -/
def rowToStreamMessage (event : FlaggedEventRow) : StreamMessage :=
  { warning_id := event.id
    warning_type := event.type
    payload := event.event_payload
    analysis := some
      { root_cause := event.root_cause
        impact := event.impact
        next_steps := event.next_steps }
    is_ping := false }

/-- Translated from `handleSearch` (`warning-card.tsx`, lines 287-308): start
from an empty result list and, when the database returned data, push the
mapped rows. -/
def handleSearch (data : Option (List FlaggedEventRow)) : List StreamMessage :=
  match data with
  | some rows => rows.map rowToStreamMessage
  | none => []

/-- The functional state update passed to `setMessages` inside the `Feedbox`
EventSource handler (`warning-card.tsx`, lines 265-268):
`[data, ...prevMessages].slice(0, 20)`. -/
def feedboxSetMessages (data : StreamMessage) (prevMessages : List StreamMessage) :
    List StreamMessage :=
  (data :: prevMessages).take 20

/-- The `Feedbox` EventSource `onmessage` handler (`warning-card.tsx`,
lines 261-273) acting on the message list: the parsed message is accepted only
when `data.payload && data.is_ping == false`, in which case the state update
above runs; otherwise the state is unchanged. -/
def feedboxOnMessage (prevMessages : List StreamMessage) (data : WireMessage) :
    List StreamMessage :=
  match data.payload with
  | some p =>
    if data.is_ping == false then
      feedboxSetMessages (data.toStreamMessage p) prevMessages
    else prevMessages
  | none => prevMessages

/-- The `Feedbox` message list produced by a sequence of accepted messages in
arrival order (each one going through the `setMessages` update). -/
def feedboxRun (ms : List StreamMessage) : List StreamMessage :=
  ms.foldl (fun st m => feedboxSetMessages m st) []

/-- The `onmessage` handler of the secondary stream page
(`src/unnamed/part_002`, the plain `Home` component):
`setMessages((prevMessages) => [event.data, ...prevMessages])` — every
received message is prepended, with no filtering.  The component stores
`event.data`, the wire form of each message; we model the state as holding
the wire messages themselves. -/
def homeOnMessage (prevMessages : List WireMessage) (data : WireMessage) :
    List WireMessage :=
  data :: prevMessages

/-- The `analysis` prop shape of `WarningCard` (`rootCause`/`impact`/
`nextSteps`). -/
structure AnalysisView where
  rootCause : List String
  impact : List String
  nextSteps : List String
  deriving DecidableEq

/-- The body a rendered `WarningCard` shows: the processing placeholder, the
root-cause/impact/next-steps analysis sections, or nothing. -/
inductive CardBody where
  | placeholder
  | sections (a : AnalysisView)
  | empty
  deriving DecidableEq

/-- Translated from the `CardContent` of `WarningCard` (`warning-card.tsx`,
lines 127-201): `!isProcessed` shows the placeholder, otherwise
`analysis && <sections>` shows the analysis sections when the prop is
present and nothing when it is absent. -/
def warningCardBody (isProcessed : Bool) (analysis : Option AnalysisView) : CardBody :=
  if !isProcessed then .placeholder
  else
    match analysis with
    | some a => .sections a
    | none => .empty

/-- The `analysis` prop value every call site passes: the message's analysis,
mapped to the `rootCause`/`impact`/`nextSteps` shape. -/
def messageAnalysisView (m : StreamMessage) : Option AnalysisView :=
  m.analysis.map fun a =>
    { rootCause := a.root_cause, impact := a.impact, nextSteps := a.next_steps }

/-- The card body shown for a message: the composition used identically at all
three call sites (`Feedbox` feed tab lines 417-433, `Feedbox` search tab lines
464-480, `Viewer` lines 95-112), each passing
`isProcessed = !!message.analysis` and the mapped analysis. -/
def renderWarningCardBody (m : StreamMessage) : CardBody :=
  warningCardBody m.analysis.isSome (messageAnalysisView m)

/-- One displayed line of the JSON viewer. -/
structure JsonLine where
  number : Nat
  content : String
  deriving DecidableEq

/-- Translated from `formatJsonWithLineNumbers` (`json-viewer.tsx`, lines
10-22).  `stringify` stands for the platform builtin
`JSON.stringify(obj, null, 2)` and `falsy` for JavaScript falsiness of the
input (`!obj`); both are parameters because they are external to this
function's logic.  A falsy input yields `[]`; otherwise the stringified text
is split on newlines and each line is paired with its 1-based line number. -/
def formatJsonWithLineNumbers (α : Type) (stringify : α → String) (falsy : α → Bool)
    (obj : α) : List JsonLine :=
  if falsy obj then []
  else
    (jsSplit '\n' (stringify obj)).enum.map fun p =>
      { number := p.1 + 1, content := p.2 }

/-! ## Concrete sample data for witnesses and counterexamples -/

/-- A minimal event payload. -/
def samplePayload : Payload :=
  { id := "123", type := "PushEvent", actor := none, repo := none
    created_at := "2024-01-01T00:00:00Z" }

/-- A ping as it arrives on the wire: `is_ping = true`, no payload. -/
def pingWire : WireMessage :=
  { payload := none, analysis := none, warning_id := "", warning_type := ""
    is_ping := true }

/-- A well-formed non-ping wire message. -/
def sampleWire : WireMessage :=
  { payload := some samplePayload, analysis := none, warning_id := "w1"
    warning_type := "Push to default branch", is_ping := false }

/-- A plain message sitting in the feed. -/
def dummyMessage : StreamMessage :=
  { payload := samplePayload, analysis := none, warning_id := "w0"
    warning_type := "t", is_ping := false }

/-- A warning rendered in its processing state (no analysis yet). -/
def processingMessage : StreamMessage :=
  { payload := samplePayload, analysis := none, warning_id := "w1"
    warning_type := "Push to default branch", is_ping := false }

/-- The enrichment-completed notification for the same warning id `w1`. -/
def enrichedWire : WireMessage :=
  { payload := some samplePayload
    analysis := some { root_cause := ["rc"], impact := ["imp"], next_steps := ["ns"] }
    warning_id := "w1", warning_type := "Push to default branch", is_ping := false }

/-- A message whose analysis is populated. -/
def enrichedMessage : StreamMessage :=
  { payload := samplePayload
    analysis := some { root_cause := ["rc"], impact := ["imp"], next_steps := ["ns"] }
    warning_id := "w1", warning_type := "Push to default branch", is_ping := false }

/-- A processed database row whose repository name contains "repo". -/
def sampleRow : FlaggedEventRow :=
  { id := "evt-1", type := "Push to default branch", event_payload := samplePayload
    root_cause := ["rc"], impact := ["imp"], next_steps := ["ns"]
    has_been_processed := true, repo_name := "owner/My-Repo", org_name := "acme"
    actor_username := "alice" }

/-- A processed row none of whose searchable fields contains a percent sign. -/
def unmatchedRow : FlaggedEventRow :=
  { id := "evt-2", type := "t", event_payload := samplePayload
    root_cause := [], impact := [], next_steps := []
    has_been_processed := true, repo_name := "abc", org_name := "def"
    actor_username := "ghi" }

/-- A message whose payload carries a repo with empty name and url. -/
def emptyRepoMessage : StreamMessage :=
  { payload :=
      { id := "1", type := "PushEvent", actor := none,
        repo := some { id := 1, name := "", url := "" }, created_at := "c" }
    analysis := none, warning_id := "w9", warning_type := "t", is_ping := false }

/-- A message whose payload carries an ordinary GitHub repo record. -/
def sampleRepoMessage : StreamMessage :=
  { payload :=
      { id := "2", type := "PushEvent", actor := none,
        repo := some { id := 2, name := "owner/repo", url := "https://api.github.com/repos/owner/repo" },
        created_at := "c" }
    analysis := none, warning_id := "w2", warning_type := "t", is_ping := false }

/-! ## Helper lemmas -/

/-- Lower-casing a character either leaves it unchanged (and it was not an
ASCII upper-case letter) or produces an ASCII lower-case letter. -/
theorem lowerChar_cases (c : Char) :
    (lowerChar c = c ∧ ¬(65 ≤ c.toNat ∧ c.toNat ≤ 90)) ∨
      (97 ≤ (lowerChar c).toNat ∧ (lowerChar c).toNat ≤ 122) := by
  unfold lowerChar
  split
  · next h =>
    right
    obtain ⟨h1, h2⟩ := h
    set k := c.toNat with hk
    interval_cases k <;> exact ⟨by decide, by decide⟩
  · next h => exact Or.inl ⟨rfl, h⟩

/-- A lower-cased character is never an ASCII upper-case letter. -/
theorem lowerChar_not_upper (c : Char) :
    ¬(65 ≤ (lowerChar c).toNat ∧ (lowerChar c).toNat ≤ 90) := by
  rcases lowerChar_cases c with ⟨he, hn⟩ | ⟨h97, h122⟩
  · rw [he]; exact hn
  · intro h; omega

/-- A character outside the ASCII lower-case range is produced by `lowerChar`
only from itself. -/
theorem lowerChar_eq_low (c t : Char) (ht : t.toNat < 97 ∨ 122 < t.toNat)
    (h : lowerChar c = t) : c = t := by
  rcases lowerChar_cases c with ⟨he, _⟩ | ⟨h97, h122⟩
  · exact he.symm.trans h
  · rw [h] at h97 h122
    exfalso; omega

/-- Lower-casing cannot introduce a character outside the ASCII lower-case
range that was not already present. -/
theorem not_mem_map_lowerChar (l : List Char) (t : Char)
    (ht : t.toNat < 97 ∨ 122 < t.toNat) (h : t ∉ l) : t ∉ l.map lowerChar := by
  intro hmem
  obtain ⟨c, hc, hlc⟩ := List.mem_map.mp hmem
  exact h (lowerChar_eq_low c t ht hlc ▸ hc)

/-- A lower-cased string never equals a string whose first character is an
ASCII upper-case letter. -/
theorem jsToLowerCase_ne_of_upper_head (s t : String) (hne : t.data ≠ [])
    (h65 : 65 ≤ (t.data.headD 'a').toNat) (h90 : (t.data.headD 'a').toNat ≤ 90) :
    jsToLowerCase s ≠ t := by
  intro heq
  have hd : s.data.map lowerChar = t.data := congrArg String.data heq
  cases hs : s.data with
  | nil =>
    rw [hs] at hd
    exact hne hd.symm
  | cons a l =>
    rw [hs] at hd
    have hhead : t.data.headD 'a' = lowerChar a := by rw [← hd]; rfl
    rw [hhead] at h65 h90
    exact lowerChar_not_upper a ⟨h65, h90⟩

/-- The pattern consisting of a single `%` wildcard matches every string. -/
theorem likeMatch_pct_nil (s : List Char) : likeMatch ['%'] s = true := by
  induction s with
  | nil => rfl
  | cons c cs ih =>
    have h : likeMatch ['%'] (c :: cs) = (false || likeMatch ['%'] cs) := rfl
    rw [h, Bool.false_or, ih]

/-- A wildcard-free pattern followed by `%` matches exactly the strings that
start with the literal pattern. -/
theorem likeMatch_literal_pct : ∀ p : List Char, '%' ∉ p → '_' ∉ p →
    ∀ s, likeMatch (p ++ ['%']) s = startsWithList p s := by
  intro p
  induction p with
  | nil =>
    intro _ _ s
    rw [List.nil_append, likeMatch_pct_nil]
    rfl
  | cons a p' ih =>
    intro hp hu s
    have ha : a ≠ '%' := fun h => hp (List.mem_cons.mpr (Or.inl h.symm))
    have hau : a ≠ '_' := fun h => hu (List.mem_cons.mpr (Or.inl h.symm))
    have hp' : '%' ∉ p' := fun h => hp (List.mem_cons_of_mem a h)
    have hu' : '_' ∉ p' := fun h => hu (List.mem_cons_of_mem a h)
    cases s with
    | nil => simp [likeMatch, startsWithList, ha]
    | cons c s' => simp [likeMatch, startsWithList, ha, hau, ih hp' hu' s']

/-- Two pointwise-equal predicates give the same `any`. -/
theorem any_congr_chars (l : List (List Char)) (f g : List Char → Bool)
    (h : ∀ t, f t = g t) : l.any f = l.any g := by
  induction l with
  | nil => rfl
  | cons x xs ih => simp [List.any_cons, h x, ih]

/-- Scanning all suffixes for a literal head occurrence is the substring
test. -/
theorem suffixes_any_startsWith (needle : List Char) :
    ∀ s, (suffixes s).any (fun t => startsWithList needle t) = containsList needle s := by
  intro s
  induction s with
  | nil => cases needle <;> rfl
  | cons c cs ih =>
    have h : (suffixes (c :: cs)).any (fun t => startsWithList needle t) =
        (startsWithList needle (c :: cs) ||
          (suffixes cs).any (fun t => startsWithList needle t)) := rfl
    rw [h, ih]
    rfl

/-- The `LIKE` pattern `%p%` with wildcard-free `p` is the substring test. -/
theorem likeMatch_pct_literal_pct (p : List Char) (hp : '%' ∉ p) (hu : '_' ∉ p)
    (s : List Char) : likeMatch ('%' :: (p ++ ['%'])) s = containsList p s := by
  have h : likeMatch ('%' :: (p ++ ['%'])) s =
      (suffixes s).any (fun t => likeMatch (p ++ ['%']) t) := by
    simp [likeMatch]
  rw [h,
    any_congr_chars (suffixes s) _ _ (fun t => likeMatch_literal_pct p hp hu t),
    suffixes_any_startsWith]

/-- For a wildcard-free query, the `ilike` filter `%query%` is exactly the
case-insensitive substring test. -/
theorem ilikeMatches_eq_occurs (q s : String) (hp : '%' ∉ q.data) (hu : '_' ∉ q.data) :
    ilikeMatches ("%" ++ q ++ "%") s = occursCaseInsensitive q s := by
  have hd : ("%" ++ q ++ "%").data = '%' :: (q.data ++ ['%']) := by
    rw [String.data_append, String.data_append]
    rfl
  have hpc : lowerChar '%' = '%' := by decide
  have hmap : ('%' :: (q.data ++ ['%'])).map lowerChar =
      '%' :: (q.data.map lowerChar ++ ['%']) := by
    simp [hpc]
  unfold ilikeMatches occursCaseInsensitive lowerList
  rw [hd, hmap]
  exact likeMatch_pct_literal_pct (q.data.map lowerChar)
    (not_mem_map_lowerChar q.data '%' (Or.inl (by decide)) hp)
    (not_mem_map_lowerChar q.data '_' (Or.inl (by decide)) hu) _

/-- Pushing onto a state already capped at 20 is the capped push. -/
theorem feedboxSetMessages_take (m : StreamMessage) (acc : List StreamMessage) :
    feedboxSetMessages m (acc.take 20) = (m :: acc).take 20 := by
  have h1 : feedboxSetMessages m (acc.take 20) = m :: (acc.take 20).take 19 := rfl
  have h2 : (m :: acc).take 20 = m :: acc.take 19 := rfl
  rw [h1, h2, List.take_take]
  norm_num

/-- Folding the `Feedbox` update over a message list, starting from a capped
state, keeps the newest 20 messages. -/
theorem feedboxRun_aux (ms : List StreamMessage) :
    ∀ acc : List StreamMessage,
      ms.foldl (fun st m => feedboxSetMessages m st) (acc.take 20) =
        (ms.reverse ++ acc).take 20 := by
  induction ms with
  | nil => intro acc; simp
  | cons x t ih =>
    intro acc
    show t.foldl (fun st m => feedboxSetMessages m st)
      (feedboxSetMessages x (acc.take 20)) = _
    rw [feedboxSetMessages_take, ih (x :: acc)]
    simp

/-- The `Feedbox` state after a run of accepted messages is the reversed
arrival list, capped at 20. -/
theorem feedboxRun_eq (ms : List StreamMessage) : feedboxRun ms = ms.reverse.take 20 := by
  have h := feedboxRun_aux ms []
  simpa [feedboxRun] using h

/-- Mapping the content projection over the numbered lines recovers the
lines. -/
theorem enumLines_content (l : List String) :
    (l.enum.map fun p => JsonLine.mk (p.1 + 1) p.2).map JsonLine.content = l := by
  rw [List.map_map]
  have h : (JsonLine.content ∘ fun p : Nat × String => JsonLine.mk (p.1 + 1) p.2) =
      Prod.snd := rfl
  rw [h, List.enum_map_snd]

/-- The numbers produced from an enumeration starting at `n` are the
consecutive range starting at `n + 1`. -/
theorem enumFromLines_numbers (l : List String) :
    ∀ n, ((List.enumFrom n l).map fun p => JsonLine.mk (p.1 + 1) p.2).map JsonLine.number =
      List.range' (n + 1) l.length := by
  induction l with
  | nil => intro n; rfl
  | cons a t ih =>
    intro n
    show (n + 1) :: ((List.enumFrom (n + 1) t).map fun p =>
      JsonLine.mk (p.1 + 1) p.2).map JsonLine.number = List.range' (n + 1) (t.length + 1)
    rw [ih (n + 1)]
    rfl

/-- The numbers of the numbered lines are consecutively 1..n. -/
theorem enumLines_numbers (l : List String) :
    (l.enum.map fun p => JsonLine.mk (p.1 + 1) p.2).map JsonLine.number =
      List.range' 1 l.length :=
  enumFromLines_numbers l 0

/-! ## Claim theorems -/

/-- C1 counterexample: the claim that every stream-subscribing component
filters out messages with `is_ping = true` fails on the secondary stream page:
its handler adds a ping message to the displayed feed. -/
theorem c1_home_renders_ping :
    pingWire.is_ping = true ∧ homeOnMessage [] pingWire = [pingWire] ∧
      ([pingWire] : List WireMessage) ≠ [] :=
  ⟨rfl, rfl, by decide⟩

/-- C1 (amended): the `Feedbox` subscriber filters the stream: a message with
`is_ping = true`, or one lacking a payload, leaves the feed unchanged, and
every non-ping message carrying a payload is added to the displayed feed; the
secondary stream page subscriber, in contrast, adds every message
unfiltered. -/
theorem c1_feedbox_filters_pings (prev : List StreamMessage) (d : WireMessage) :
    (d.is_ping = true → feedboxOnMessage prev d = prev) ∧
      (d.payload = none → feedboxOnMessage prev d = prev) ∧
      (∀ p, d.payload = some p → d.is_ping = false →
        feedboxOnMessage prev d = feedboxSetMessages (d.toStreamMessage p) prev) ∧
      (∀ (st : List WireMessage) (w : WireMessage), homeOnMessage st w = w :: st) := by
  refine ⟨?_, ?_, ?_, fun st w => rfl⟩
  · intro hping
    cases hp : d.payload with
    | none => simp [feedboxOnMessage, hp]
    | some p => simp [feedboxOnMessage, hp, hping]
  · intro hp
    simp [feedboxOnMessage, hp]
  · intro p hp hping
    simp [feedboxOnMessage, hp, hping]

/-- Witness for C1: a concrete non-ping message is added to the feed, and a
concrete ping is dropped. -/
theorem c1_feedbox_filters_pings_witness :
    feedboxOnMessage [] sampleWire = [sampleWire.toStreamMessage samplePayload] ∧
      feedboxOnMessage [] pingWire = [] := by
  constructor
  · have h := (c1_feedbox_filters_pings [] sampleWire).2.2.1 samplePayload rfl rfl
    rw [h]
    rfl
  · exact (c1_feedbox_filters_pings [] pingWire).1 rfl

/-- C2 counterexample: for the query consisting of a lone percent sign, the
search returns a record although the query does not occur as a substring of
any of the three searched fields — the query text is interpreted as an SQL
wildcard by `ilike`, not as literal text. -/
theorem c2_counterexample :
    getRelevantEvents "%" [unmatchedRow] = [unmatchedRow] ∧
      occursCaseInsensitive "%" unmatchedRow.repo_name = false ∧
      occursCaseInsensitive "%" unmatchedRow.org_name = false ∧
      occursCaseInsensitive "%" unmatchedRow.actor_username = false := by
  decide

/-- C2 (amended): for every query string containing neither of the SQL `LIKE`
wildcard characters (percent sign and underscore), `getRelevantEvents`
returns only records whose `has_been_processed` field is true and in which
the query occurs case-insensitively as a substring of the repository name,
organization name, or actor username. -/
theorem c2_getRelevantEvents_restricts (query : String)
    (flagged_events : List FlaggedEventRow) (r : FlaggedEventRow)
    (hp : '%' ∉ query.data) (hu : '_' ∉ query.data)
    (hr : r ∈ getRelevantEvents query flagged_events) :
    r.has_been_processed = true ∧
      (occursCaseInsensitive query r.repo_name = true ∨
        occursCaseInsensitive query r.org_name = true ∨
        occursCaseInsensitive query r.actor_username = true) := by
  unfold getRelevantEvents at hr
  rw [List.mem_filter] at hr
  obtain ⟨-, hcond⟩ := hr
  rw [Bool.and_eq_true, Bool.or_eq_true, Bool.or_eq_true] at hcond
  obtain ⟨hproc, hor⟩ := hcond
  refine ⟨hproc, ?_⟩
  rw [ilikeMatches_eq_occurs query r.repo_name hp hu,
    ilikeMatches_eq_occurs query r.org_name hp hu,
    ilikeMatches_eq_occurs query r.actor_username hp hu] at hor
  rcases hor with (h | h) | h
  · exact Or.inl h
  · exact Or.inr (Or.inl h)
  · exact Or.inr (Or.inr h)

/-- Witness for C2: the wildcard-free query "Repo" returns the sample row,
which is processed and matches case-insensitively on its repository name. -/
theorem c2_getRelevantEvents_restricts_witness :
    ('%' ∉ "Repo".data ∧ '_' ∉ "Repo".data ∧
        sampleRow ∈ getRelevantEvents "Repo" [sampleRow]) ∧
      (sampleRow.has_been_processed = true ∧
        (occursCaseInsensitive "Repo" sampleRow.repo_name = true ∨
          occursCaseInsensitive "Repo" sampleRow.org_name = true ∨
          occursCaseInsensitive "Repo" sampleRow.actor_username = true)) :=
  ⟨⟨by decide, by decide, by decide⟩,
    c2_getRelevantEvents_restricts "Repo" [sampleRow] sampleRow
      (by decide) (by decide) (by decide)⟩

/-- C3: the `Feedbox` state update prepends the new message and truncates to
the first 20 entries, the resulting list never exceeds 20 messages (also over
any run of accepted messages), and when the previous list already holds 20
messages the entry dropped is the last one, i.e. the oldest. -/
theorem c3_feedbox_cap (m : StreamMessage) (prev ms : List StreamMessage) :
    feedboxSetMessages m prev = (m :: prev).take 20 ∧
      (feedboxSetMessages m prev).length ≤ 20 ∧
      (feedboxRun ms).length ≤ 20 ∧
      (prev.length = 20 → feedboxSetMessages m prev = m :: prev.dropLast) := by
  refine ⟨rfl, List.length_take_le 20 _, ?_, ?_⟩
  · rw [feedboxRun_eq]
    exact List.length_take_le 20 _
  · intro h
    show (m :: prev).take 20 = m :: prev.dropLast
    have h1 : (m :: prev).take 20 = m :: prev.take 19 := rfl
    rw [h1, List.dropLast_eq_take, h]

/-- Witness for C3: pushing onto a full 20-message feed drops exactly the
oldest entry. -/
theorem c3_feedbox_cap_witness :
    (List.replicate 20 dummyMessage).length = 20 ∧
      feedboxSetMessages dummyMessage (List.replicate 20 dummyMessage) =
        dummyMessage :: (List.replicate 20 dummyMessage).dropLast :=
  ⟨by decide,
    (c3_feedbox_cap dummyMessage (List.replicate 20 dummyMessage) []).2.2.2 (by decide)⟩

/-- C4: every message produced by `handleSearch` from returned records has the
live-stream `StreamMessage` shape, with `is_ping = false` and the `analysis`
field populated from the record's root_cause, impact and next_steps
columns. -/
theorem c4_handleSearch_shape (rows : List FlaggedEventRow) (m : StreamMessage)
    (hm : m ∈ handleSearch (some rows)) :
    m.is_ping = false ∧
      ∃ event ∈ rows, m = rowToStreamMessage event ∧
        m.analysis = some (Analysis.mk event.root_cause event.impact event.next_steps) ∧
        m.warning_id = event.id ∧ m.warning_type = event.type ∧
        m.payload = event.event_payload := by
  unfold handleSearch at hm
  obtain ⟨e, he, hme⟩ := List.mem_map.mp hm
  subst hme
  exact ⟨rfl, e, he, rfl, rfl, rfl, rfl, rfl⟩

/-- Witness for C4: the message produced from the sample row. -/
theorem c4_handleSearch_shape_witness :
    (rowToStreamMessage sampleRow).is_ping = false ∧
      ∃ event ∈ [sampleRow], rowToStreamMessage sampleRow = rowToStreamMessage event ∧
        (rowToStreamMessage sampleRow).analysis =
          some (Analysis.mk event.root_cause event.impact event.next_steps) ∧
        (rowToStreamMessage sampleRow).warning_id = event.id ∧
        (rowToStreamMessage sampleRow).warning_type = event.type ∧
        (rowToStreamMessage sampleRow).payload = event.event_payload :=
  c4_handleSearch_shape [sampleRow] (rowToStreamMessage sampleRow) (by decide)

/-- C5: through the composition every call site uses, the card shows the
processing placeholder exactly when the message carries no analysis, shows the
analysis sections exactly when an analysis is present, and the sections shown
are the message's root cause, impact and next steps. -/
theorem c5_card_processing_iff_analysis (m : StreamMessage) :
    (renderWarningCardBody m = CardBody.placeholder ↔ m.analysis = none) ∧
      (∀ a, m.analysis = some a → renderWarningCardBody m =
        CardBody.sections (AnalysisView.mk a.root_cause a.impact a.next_steps)) ∧
      ((∃ v, renderWarningCardBody m = CardBody.sections v) ↔ m.analysis.isSome = true) := by
  cases h : m.analysis with
  | none =>
    refine ⟨by simp [renderWarningCardBody, warningCardBody, messageAnalysisView, h],
      ?_, by simp [renderWarningCardBody, warningCardBody, messageAnalysisView, h]⟩
    intro a ha
    exact absurd ha (by simp [h])
  | some a =>
    refine ⟨?_, ?_, ?_⟩ <;>
      simp [renderWarningCardBody, warningCardBody, messageAnalysisView, h]

/-- Witness for C5: the enriched sample message renders its analysis
sections. -/
theorem c5_card_processing_iff_analysis_witness :
    renderWarningCardBody enrichedMessage =
      CardBody.sections { rootCause := ["rc"], impact := ["imp"], nextSteps := ["ns"] } :=
  (c5_card_processing_iff_analysis enrichedMessage).2.1
    { root_cause := ["rc"], impact := ["imp"], next_steps := ["ns"] } rfl

/-- C6 counterexample: when the enrichment-completed notification for warning
id w1 arrives while the processing-state entry for w1 is in the feed, the
handler does not update that entry in place: it prepends a second entry, so
the feed then holds two entries with the same warning id and still contains
the old processing entry. -/
theorem c6_counterexample :
    enrichedWire.warning_id = processingMessage.warning_id ∧
      feedboxOnMessage [processingMessage] enrichedWire =
        [enrichedWire.toStreamMessage samplePayload, processingMessage] ∧
      (feedboxOnMessage [processingMessage] enrichedWire).length = 2 ∧
      (feedboxOnMessage [processingMessage] enrichedWire).countP
        (fun m => m.warning_id == "w1") = 2 ∧
      processingMessage ∈ feedboxOnMessage [processingMessage] enrichedWire := by
  decide

/-- C6 (amended): the subscriber does not reconcile by warning id: an accepted
notification is always prepended as a new entry (while the feed is below the
cap), and every existing entry — including one carrying the same warning id —
is retained unchanged, so a completion notification yields a second entry
rather than an in-place update. -/
theorem c6_feedbox_appends (d : WireMessage) (p : Payload) (prev : List StreamMessage)
    (hp : d.payload = some p) (hping : d.is_ping = false) (hlen : prev.length < 20) :
    feedboxOnMessage prev d = d.toStreamMessage p :: prev ∧
      ∀ m ∈ prev, m ∈ feedboxOnMessage prev d := by
  have h : feedboxOnMessage prev d = (d.toStreamMessage p :: prev).take 20 := by
    simp [feedboxOnMessage, hp, hping, feedboxSetMessages]
  have h2 : (d.toStreamMessage p :: prev).take 20 = d.toStreamMessage p :: prev :=
    List.take_of_length_le (by simp; omega)
  rw [h, h2]
  exact ⟨rfl, fun m hm => List.mem_cons_of_mem _ hm⟩

/-- Witness for C6: the completion notification for w1 lands as a new head
entry in front of the untouched processing entry. -/
theorem c6_feedbox_appends_witness :
    feedboxOnMessage [processingMessage] enrichedWire =
      enrichedWire.toStreamMessage samplePayload :: [processingMessage] :=
  (c6_feedbox_appends enrichedWire samplePayload [processingMessage]
    rfl rfl (by decide)).1

/-- C7: each accepted message is prepended at position 0 of the feed, the rest
of the updated feed is an initial segment of the previous feed (so the
relative order of the retained messages is preserved), and a whole run of
accepted messages is displayed newest-first: the state is the reversed arrival
list capped at 20. -/
theorem c7_feedbox_newest_first (m : StreamMessage) (prev ms : List StreamMessage) :
    (feedboxSetMessages m prev).head? = some m ∧
      (feedboxSetMessages m prev).tail <+: prev ∧
      feedboxRun ms = ms.reverse.take 20 :=
  ⟨rfl, ⟨prev.drop 19, List.take_append_drop 19 prev⟩, feedboxRun_eq ms⟩

/-- C8: getWarningTypeColor always returns the gray default style: the switch
compares the lower-cased input against case labels that each contain an
upper-case letter, so no non-default case is ever taken. -/
theorem c8_getWarningTypeColor_default (s : String) :
    getWarningTypeColor s = "bg-gray-100 text-gray-800 border-gray-200" := by
  unfold getWarningTypeColor
  rw [if_neg (jsToLowerCase_ne_of_upper_head s "Push to default branch"
      (by decide) (by decide) (by decide)),
    if_neg (jsToLowerCase_ne_of_upper_head s "Large push to default branch"
      (by decide) (by decide) (by decide)),
    if_neg (jsToLowerCase_ne_of_upper_head s "Default branch deleted"
      (by decide) (by decide) (by decide)),
    if_neg (jsToLowerCase_ne_of_upper_head s "Repository visibility changed to public"
      (by decide) (by decide) (by decide)),
    if_neg (jsToLowerCase_ne_of_upper_head s "New collaborator added"
      (by decide) (by decide) (by decide))]

/-- C9 counterexample: for a message whose payload carries a repo with empty
name and empty url, the code falls back to the absent-repo defaults, while the
claim prescribes the empty name and the (empty) replaced url. -/
theorem c9_counterexample :
    emptyRepoMessage.payload.repo = some { id := 1, name := "", url := "" } ∧
      getRepositoryInfo emptyRepoMessage = { name := "Unknown Repository", url := "#" } ∧
      claimedRepositoryInfo emptyRepoMessage = { name := "", url := "" } ∧
      getRepositoryInfo emptyRepoMessage ≠ claimedRepositoryInfo emptyRepoMessage := by
  decide

/-- C9 (amended): with no repo field the defaults are returned; with a repo
whose name and url are non-empty the result is exactly the claim's
description (last slash-separated segment of the name, or the name itself if
that segment is empty, and the url with `api.github.com/repos` replaced by
`github.com`); an empty repo name falls back to the name default "Unknown
Repository" and an empty repo url falls back to "#". -/
theorem c9_getRepositoryInfo (m : StreamMessage) :
    (m.payload.repo = none →
        getRepositoryInfo m = { name := "Unknown Repository", url := "#" }) ∧
      (∀ r, m.payload.repo = some r → r.name ≠ "" → r.url ≠ "" →
        getRepositoryInfo m = claimedRepositoryInfo m) ∧
      (∀ r, m.payload.repo = some r → r.name = "" →
        (getRepositoryInfo m).name = "Unknown Repository") ∧
      (∀ r, m.payload.repo = some r → r.url = "" → (getRepositoryInfo m).url = "#") := by
  refine ⟨?_, ?_, ?_, ?_⟩
  · intro hrepo
    unfold getRepositoryInfo
    rw [hrepo]
    decide
  · intro r hrepo hname hurl
    simp [getRepositoryInfo, claimedRepositoryInfo, hrepo, jsOrOpt, jsOr, hname, hurl]
  · intro r hrepo hname
    simp [getRepositoryInfo, hrepo, jsOrOpt, jsOr, hname]
    decide
  · intro r hrepo hurl
    simp [getRepositoryInfo, hrepo, jsOrOpt, jsOr, hurl]
    decide

/-- Witness for C9: an ordinary repo record yields the claim's description,
concretely the repo short name and the web url. -/
theorem c9_getRepositoryInfo_witness :
    getRepositoryInfo sampleRepoMessage = claimedRepositoryInfo sampleRepoMessage ∧
      getRepositoryInfo sampleRepoMessage =
        { name := "repo", url := "https://github.com/owner/repo" } :=
  ⟨(c9_getRepositoryInfo sampleRepoMessage).2.1
      { id := 2, name := "owner/repo", url := "https://api.github.com/repos/owner/repo" }
      rfl (by decide) (by decide),
    by decide⟩

/-- C10: for a falsy input the formatter returns the empty list; for any other
input it returns exactly one entry per line of the stringified value, in
order, the content fields being the lines and the number fields being
consecutively 1..n. -/
theorem c10_formatJsonWithLineNumbers (α : Type) (stringify : α → String)
    (falsy : α → Bool) (obj : α) :
    (falsy obj = true → formatJsonWithLineNumbers α stringify falsy obj = []) ∧
      (falsy obj = false →
        (formatJsonWithLineNumbers α stringify falsy obj).map JsonLine.content =
          jsSplit '\n' (stringify obj) ∧
        (formatJsonWithLineNumbers α stringify falsy obj).map JsonLine.number =
          List.range' 1 (jsSplit '\n' (stringify obj)).length ∧
        (formatJsonWithLineNumbers α stringify falsy obj).length =
          (jsSplit '\n' (stringify obj)).length) := by
  constructor
  · intro h
    unfold formatJsonWithLineNumbers
    rw [h]
    rfl
  · intro h
    have hx : formatJsonWithLineNumbers α stringify falsy obj =
        (jsSplit '\n' (stringify obj)).enum.map fun p => JsonLine.mk (p.1 + 1) p.2 := by
      unfold formatJsonWithLineNumbers
      rw [h]
      rfl
    rw [hx]
    exact ⟨enumLines_content _, enumLines_numbers _, by simp⟩

/-- Witness for C10: a two-line stringification yields entries numbered 1 and
2 carrying the two lines. -/
theorem c10_formatJsonWithLineNumbers_witness :
    (formatJsonWithLineNumbers Nat (fun _ => "ab\ncd") (fun _ => false) 0).map
        JsonLine.content = jsSplit '\n' "ab\ncd" ∧
      (formatJsonWithLineNumbers Nat (fun _ => "ab\ncd") (fun _ => false) 0).map
        JsonLine.number = List.range' 1 (jsSplit '\n' "ab\ncd").length ∧
      (formatJsonWithLineNumbers Nat (fun _ => "ab\ncd") (fun _ => false) 0).length =
        (jsSplit '\n' "ab\ncd").length :=
  (c10_formatJsonWithLineNumbers Nat (fun _ => "ab\ncd") (fun _ => false) 0).2 rfl

end ConwayTechnical
